import Mathlib

/-!
A shallow embedding of the forwarding-proxy package (`proxy.go`, the current
revision: `NewHandler(targetURL, timeout, ch)` with `Times`, `Error` and
`Source` fields on `Data`).  Byte strings (URL components, bodies) are
modelled as `List Nat` of byte values; text that is never escaped byte-wise
(methods, header keys/values, error messages, the source tag) is modelled as
Lean `String`.  Go's `time.Time` zero value ("never set") is modelled as
`Option Nat`: `none` is the zero value, `some t` a stamped wall-clock tick.
-/

set_option autoImplicit false

namespace Proxy

/-- Bytes of an ASCII string literal (used only to write concrete values). -/
def gs (s : String) : List Nat :=
  s.toList.map Char.toNat

/-- `http.Header`: a map from canonical header keys to lists of values.
Go's `http.Header` is a `map[string][]string`; parsed requests hold each
key once, so the model is an association list assumed key-distinct where a
claim needs it. -/
abbrev Header : Type := List (String × List String)

/-- `http.Header.Get`: first value associated with the key, `""` if none. -/
def Header.get (h : Header) (k : String) : String :=
  match List.find? (fun kv => kv.1 == k) h with
  | some kv =>
    match kv.2 with
    | v :: _ => v
    | [] => ""
  | none => ""

/-- `http.Header.Set`: replace the key's entry with the single value. -/
def Header.set (h : Header) (k v : String) : Header :=
  if List.any h (fun kv => kv.1 == k) then
    List.map (fun kv => if kv.1 == k then (k, [v]) else kv) h
  else
    h ++ [(k, [v])]

/-- `copyHeaders(dst, src)`: `for k := range src { dst.Set(k, src.Get(k)) }`.
Go map iteration order is unspecified; the model iterates in list order
(the per-key updates are independent when keys are distinct). -/
def copyHeaders (dst src : Header) : Header :=
  List.foldl (fun d kv => Header.set d kv.1 (Header.get src kv.1)) dst src

/-- ASCII letter or digit. -/
def isAlnum (c : Nat) : Bool :=
  (97 ≤ c && c ≤ 122) || (65 ≤ c && c ≤ 90) || (48 ≤ c && c ≤ 57)

/-- `net/url.shouldEscape(c, encodePath)`: alphanumerics, the marks
`- _ . ~` and the reserved characters `$ & + , / : ; = @` pass through;
`?` and everything else is percent-escaped. -/
def shouldEscapePath (c : Nat) : Bool :=
  if isAlnum c then false
  else if c == 45 || c == 95 || c == 46 || c == 126 then false
  else if c == 36 || c == 38 || c == 43 || c == 44 || c == 47 ||
          c == 58 || c == 59 || c == 61 || c == 64 then false
  else true

/-- `net/url.shouldEscape(c, encodeHost)`: alphanumerics, the marks and the
host sub-delims `! $ & ' ( ) * + , ; = : [ ] < > "` pass through. -/
def shouldEscapeHost (c : Nat) : Bool :=
  if isAlnum c then false
  else if c == 33 || c == 36 || c == 38 || c == 39 || c == 40 || c == 41 ||
          c == 42 || c == 43 || c == 44 || c == 59 || c == 61 || c == 58 ||
          c == 91 || c == 93 || c == 60 || c == 62 || c == 34 then false
  else if c == 45 || c == 95 || c == 46 || c == 126 then false
  else true

/-- Upper-case hexadecimal digit for a value below 16 (`"0123456789ABCDEF"`). -/
def upperHex (n : Nat) : Nat :=
  if n < 10 then 48 + n else 55 + n

/-- `net/url.escape`: percent-escape every byte the predicate selects. -/
def escape (s : List Nat) (shouldEsc : Nat → Bool) : List Nat :=
  s.flatMap (fun b => if shouldEsc b then [37, upperHex (b / 16), upperHex (b % 16)] else [b])

/-- `net/url.URL` restricted to the fields the proxy touches
(`Opaque`, `User`, `RawPath`, `ForceQuery` stay at their zero values). -/
structure GoURL where
  Scheme : List Nat := []
  Host : List Nat := []
  Path : List Nat := []
  RawQuery : List Nat := []
  Fragment : List Nat := []
deriving DecidableEq

/-- `url.URL.String()` for a URL with empty `Opaque`, nil `User`, empty
`RawPath`/`Fragment` and `ForceQuery` false — exactly the shape built by
`rewrite`.  Writes `scheme:`, then `//` and the escaped host when host or
path is present, then the escaped path (with a `/` inserted when the path
does not start with one and a host is present), then `?rawquery` verbatim. -/
def urlString (scheme host path rawQuery : List Nat) : List Nat :=
  let p := escape path shouldEscapePath
  (if scheme.isEmpty then [] else scheme ++ [58])
    ++ (if scheme.isEmpty && host.isEmpty then []
        else (if host.isEmpty && path.isEmpty then [] else [47, 47])
          ++ escape host shouldEscapeHost)
    ++ (if !p.isEmpty && p.head? != some 47 && !host.isEmpty then [47] else [])
    ++ p
    ++ (if rawQuery.isEmpty then [] else 63 :: rawQuery)

/-- `rewrite(source, target)`: build a `url.URL` from the target's scheme
and host and the source's path and raw query, and render it. -/
def rewrite (source target : GoURL) : List Nat :=
  urlString target.Scheme target.Host source.Path source.RawQuery

/-- `io.TeeReader(src, buf)` state: the bytes not yet read from the source,
and the capture buffer accumulated so far. -/
structure TeeState where
  src : List Nat
  buf : List Nat
deriving DecidableEq

/-- One `Read` of up to `n` bytes through the tee: the chunk handed to the
consumer is simultaneously appended to the capture buffer. -/
def teeRead (s : TeeState) (n : Nat) : List Nat × TeeState :=
  (s.src.take n, { src := s.src.drop n, buf := s.buf ++ s.src.take n })

/-- A sequence of tee reads with the given chunk sizes; returns the
concatenation of all chunks delivered to the consumer and the final state. -/
def teeRun (s : TeeState) : List Nat → List Nat × TeeState
  | [] => ([], s)
  | n :: ns =>
    let r := teeRead s n
    let rest := teeRun r.2 ns
    (r.1 ++ rest.1, rest.2)

/-- `Times`: the four wall-clock stamps of one request.  Go's zero
`time.Time` (never assigned) is `none`. -/
structure Times where
  Start : Option Nat := none
  WroteRequest : Option Nat := none
  GotFirstResponseByte : Option Nat := none
  End : Option Nat := none
deriving DecidableEq

/-- `Data`: the observation record published for every proxied request.
`Request`/`Response` are the capture buffers (`nil` reader = `none`). -/
structure Data where
  StatusCode : Nat := 0
  Request : Option (List Nat) := none
  Response : Option (List Nat) := none
  Error : Option String := none
  Times : Times := {}
  Source : String := ""
deriving DecidableEq

/-- The inbound `*http.Request`: method, parsed URL, header map, body bytes. -/
structure Req where
  Method : String := "GET"
  URL : GoURL := {}
  Header : Header := []
  Body : List Nat := []

/-- The upstream `*http.Response` a successful round trip returns. -/
structure Resp where
  StatusCode : Nat := 200
  Header : Header := []
  Body : List Nat := []

/-- The externally determined behaviour of one request's round trip:
what `transport.RoundTrip` returns, how the transport drains the request
body through its tee, which trace phases are reached and when, how
`io.Copy` chunks the response relay and whether it aborts. -/
structure Env where
  rt : Except String Resp := Except.error "connection refused"
  reqSched : List Nat := []
  wrotePhase : Bool := false
  gotFirstBytePhase : Bool := false
  respSched : List Nat := []
  relayErr : Option String := none
  tStart : Nat := 0
  tWrote : Nat := 0
  tFirst : Nat := 0
  tEnd : Nat := 0

/-- `io.Copy(w, io.TeeReader(res.Body, responseBuf))`: reads the scheduled
chunks through the tee; if `abortErr` is set the copy stops there with that
error, otherwise it continues reading to end of stream.  Returns the bytes
delivered to the writer, the final capture buffer, and the copy error. -/
def copyTee (body : List Nat) (sched : List Nat) (abortErr : Option String) :
    List Nat × List Nat × Option String :=
  let r := teeRun { src := body, buf := [] } sched
  match abortErr with
  | some e => (r.1, r.2.buf, some e)
  | none =>
    let r2 := teeRead r.2 r.2.src.length
    (r.1 ++ r2.1, r2.2.buf, none)

/-- The `http.ResponseWriter` as observed by the caller: response headers,
the first status code written (`WriteHeader` after the first call is a
superfluous no-op), and the body bytes written. -/
structure RW where
  header : Header := []
  status : Option Nat := none
  body : List Nat := []
deriving DecidableEq

/-- `w.WriteHeader(code)`: records the status only on the first call. -/
def RW.writeHeader (w : RW) (code : Nat) : RW :=
  match w.status with
  | some _ => w
  | none => { w with status := some code }

/-- `http.Error(w, msg, code)`: sets the plaintext headers, writes the
status, then `fmt.Fprintln` writes the message followed by a newline. -/
def httpError (w : RW) (msg : String) (code : Nat) : RW :=
  let h := Header.set w.header "Content-Type" "text/plain; charset=utf-8"
  let h := Header.set h "X-Content-Type-Options" "nosniff"
  let w := RW.writeHeader { w with header := h } code
  { w with body := w.body ++ gs msg ++ [10] }

/-- The outbound `*http.Request` built by `prepareRequest`. -/
structure OutReq where
  Method : String
  URLStr : List Nat
  Header : Header

/-- `http.NewRequest`'s method validation (`validMethod`): non-empty and
every byte an HTTP token character. -/
def isTokenChar (c : Nat) : Bool :=
  isAlnum c ||
    c == 33 || c == 35 || c == 36 || c == 37 || c == 38 || c == 39 ||
    c == 42 || c == 43 || c == 45 || c == 46 || c == 94 || c == 95 ||
    c == 96 || c == 124 || c == 126

/-- `net/http.validMethod`. -/
def validMethod (m : String) : Bool :=
  !m.isEmpty && m.toList.all (fun ch => isTokenChar ch.toNat)

/-- `prepareRequest(r, d, target)`: rewrites the URL, attaches the tee'd
body whose capture buffer is stored into `d.Request` before the error
check, and on success returns the outbound request with headers copied
from the inbound one.  `http.NewRequest` fails exactly when the method is
invalid (the rewritten URL, rendered by `url.URL.String` from the parsed
target, re-parses). -/
def prepareRequest (u : GoURL) (r : Req) (d : Data) : Data × Except String OutReq :=
  let newurl := rewrite r.URL u
  let d := { d with Request := some [] }
  if validMethod r.Method then
    (d, Except.ok { Method := r.Method, URLStr := newurl, Header := copyHeaders [] r.Header })
  else
    (d, Except.error ("net/http: invalid method \"" ++ r.Method ++ "\""))

/-- `process(transport, d, req, w)`: the round trip (during which the
transport drains the request body through the tee and the trace callbacks
stamp `WroteRequest`/`GotFirstResponseByte` if those phases are reached);
on transport error sets status 503 and returns the error; on success
records the upstream status, copies response headers, writes the status
and relays the body through the response tee. -/
def process (env : Env) (d : Data) (reqBody : List Nat) (w : RW) :
    Data × RW × Option String :=
  let d := { d with Request := some (teeRun { src := reqBody, buf := [] } env.reqSched).2.buf }
  let d := if env.wrotePhase then
      { d with Times := { d.Times with WroteRequest := some env.tWrote } } else d
  let d := if env.gotFirstBytePhase then
      { d with Times := { d.Times with GotFirstResponseByte := some env.tFirst } } else d
  match env.rt with
  | Except.error e => ({ d with StatusCode := 503 }, w, some e)
  | Except.ok res =>
    let d := { d with StatusCode := res.StatusCode }
    let w := { w with header := copyHeaders w.header res.Header }
    let w := RW.writeHeader w res.StatusCode
    let c := copyTee res.Body env.respSched env.relayErr
    ({ d with Response := some c.2.1 }, { w with body := w.body ++ c.1 }, c.2.2)

/-- `handleRequest(transport, w, d, r, u)`: prepare the outbound request,
copy the `Source` header into the record, run `process`. -/
def handleRequest (env : Env) (u : GoURL) (r : Req) (d : Data) (w : RW) :
    Data × RW × Option String :=
  match prepareRequest u r d with
  | (d, Except.error e) => (d, w, some e)
  | (d, Except.ok _req) =>
    let d := { d with Source := Header.get r.Header "Source" }
    process env d r.Body w

/-- Coarse chronological events of one handler invocation, used to state
ordering properties. -/
inductive Ev where
  | stampStart : Ev
  | pipelineDone : Ev
  | stampEnd : Ev
  | publish : Ev
  | errorResponse : Ev
deriving DecidableEq

/-- `a` occurs strictly before `b` in `l`. -/
def evBefore (l : List Ev) (a b : Ev) : Prop :=
  ∃ i j : Fin l.length, i.val < j.val ∧ l.get i = a ∧ l.get j = b

instance (l : List Ev) (a b : Ev) : Decidable (evBefore l a b) := by
  unfold evBefore
  infer_instance

/-- Everything one invocation of the handler closure produces: the record,
the caller-visible response writer, the values sent on the channel, and
the event order. -/
structure HandlerOut where
  d : Data
  w : RW
  published : List Data
  events : List Ev

/-- The handler closure returned by `NewHandler`: stamp `Start`, run
`handleRequest` storing its error into the record, stamp `End`, send the
record on the channel, and on error write the 503 error response. -/
def handler (env : Env) (u : GoURL) (r : Req) : HandlerOut :=
  let d0 : Data := { Times := { Start := some env.tStart } }
  match handleRequest env u r d0 {} with
  | (d1, w1, err) =>
    let d := { d1 with Error := err, Times := { d1.Times with End := some env.tEnd } }
    match err with
    | some e =>
      { d := d, w := httpError w1 e 503, published := [d],
        events := [Ev.stampStart, Ev.pipelineDone, Ev.stampEnd, Ev.publish, Ev.errorResponse] }
    | none =>
      { d := d, w := w1, published := [d],
        events := [Ev.stampStart, Ev.pipelineDone, Ev.stampEnd, Ev.publish] }

/-- Fields of `Times`, for stating the assignment discipline. -/
inductive TField where
  | fStart : TField
  | fWrote : TField
  | fFirst : TField
  | fEnd : TField
deriving DecidableEq

/-- The chronological sequence of assignments the handler performs on the
record's `Times` fields: `Start` at entry; `WroteRequest` and
`GotFirstResponseByte` during the round trip (only when request
construction succeeded and the transport reached that phase); `End` after
the pipeline returns. -/
def timesLog (env : Env) (r : Req) : List TField :=
  [TField.fStart]
    ++ (if validMethod r.Method then
          (if env.wrotePhase then [TField.fWrote] else [])
            ++ (if env.gotFirstBytePhase then [TField.fFirst] else [])
        else [])
    ++ [TField.fEnd]

/-! ## Concrete inputs used by witnesses and counterexamples -/

/-- A concrete target descriptor. -/
def wTarget : GoURL := { Scheme := gs "http", Host := gs "up" }

/-- A concrete upstream response. -/
def wResp : Resp := { StatusCode := 200, Header := [("X-H", ["v1"])], Body := [7, 8, 9] }

/-- A concrete environment with a successful round trip and clean relay. -/
def wEnvOk : Env :=
  { rt := Except.ok wResp, reqSched := [2, 9], wrotePhase := true,
    tStart := 3, tWrote := 4, tEnd := 5 }

/-- A concrete inbound request with a valid method. -/
def wReq : Req :=
  { Method := "POST", URL := { Path := gs "/p", RawQuery := gs "a=1" },
    Header := [("Source", ["s1"]), ("Content-Type", ["text/xml"])], Body := [1, 2, 3] }

/-- A concrete environment whose round trip fails. -/
def wEnvErr : Env := { rt := Except.error "connection refused", tStart := 3, tEnd := 5 }

/-- A concrete environment whose relay aborts after two bytes. -/
def wEnvRelay : Env :=
  { rt := Except.ok wResp, respSched := [2], relayErr := some "broken pipe",
    tStart := 3, tEnd := 5 }

/-- A concrete inbound request whose method fails `http.NewRequest`
validation. -/
def wReqBad : Req := { Method := "BAD METHOD", Header := [("Source", ["x"])] }

/-- A concrete inbound URL with escapable path bytes and a query. -/
def wSrcURL : GoURL :=
  { Scheme := gs "zz", Host := gs "in", Path := gs "/p q",
    RawQuery := gs "a=1", Fragment := gs "f" }

/-! ## Supporting lemmas -/

/-- The tee's capture buffer accumulates exactly the bytes delivered to the
consumer, in order. -/
theorem teeRun_buf (ns : List Nat) : ∀ s : TeeState, (teeRun s ns).2.buf = s.buf ++ (teeRun s ns).1 := by
  induction ns with
  | nil => intro s; simp [teeRun]
  | cons n ns ih => intro s; simp [teeRun, teeRead, ih, List.append_assoc]

/-- Bytes delivered through the tee followed by the bytes still unread
reconstitute the source. -/
theorem teeRun_src (ns : List Nat) : ∀ s : TeeState, (teeRun s ns).1 ++ (teeRun s ns).2.src = s.src := by
  induction ns with
  | nil => intro s; simp [teeRun]
  | cons n ns ih => intro s; simp [teeRun, teeRead, ih, List.append_assoc]

/-- The bytes delivered through the tee are an in-order prefix of the source. -/
theorem teeRun_take (ns : List Nat) (s : TeeState) : ∃ k, (teeRun s ns).1 = s.src.take k := by
  refine ⟨(teeRun s ns).1.length, ?_⟩
  conv_rhs => rw [← teeRun_src ns s]
  rw [List.take_left]

/-- A relay that is never aborted delivers the whole body and captures it whole. -/
theorem copyTee_none (body sched : List Nat) : copyTee body sched none = (body, body, none) := by
  have h1 := teeRun_src sched { src := body, buf := [] }
  have h2 := teeRun_buf sched { src := body, buf := [] }
  simp at h1 h2
  simp [copyTee, teeRead, List.take_length, h2, h1]

/-- An aborted relay delivers and captures the same chunk sequence and
reports the abort error. -/
theorem copyTee_some (body sched : List Nat) (e : String) :
    copyTee body sched (some e)
      = ((teeRun { src := body, buf := [] } sched).1,
          (teeRun { src := body, buf := [] } sched).1, some e) := by
  have h2 := teeRun_buf sched { src := body, buf := [] }
  simp at h2
  simp [copyTee, h2]

/-- `WriteHeader` after a status has been written is a no-op, so
`http.Error` cannot change an already-written status. -/
theorem httpError_status (w : RW) (msg : String) (code c : Nat) (h : w.status = some c) :
    (httpError w msg code).status = some c := by
  simp [httpError, RW.writeHeader, h]

/-- After replacing the `k` entries, searching for `k` finds the new entry
(provided `k` was present). -/
theorem find?_replace_eq (t : List (String × List String)) (k : String) (v : String)
    (hmem : k ∈ t.map Prod.fst) :
    List.find? (fun kv => kv.1 == k) (t.map (fun kv => if kv.1 == k then (k, [v]) else kv))
      = some (k, [v]) := by
  induction t with
  | nil => simp at hmem
  | cons e t ih =>
    by_cases he : e.1 = k
    · have hb : (e.1 == k) = true := beq_iff_eq.mpr he
      rw [List.map_cons, if_pos hb, List.find?_cons_of_pos _ (by simp)]
    · have hmem' : k ∈ t.map Prod.fst := by
        simp only [List.map_cons, List.mem_cons] at hmem
        rcases hmem with h1 | h2
        · exact absurd h1.symm he
        · exact h2
      rw [List.map_cons, if_neg (by simp [he]), List.find?_cons_of_neg _ (by simp [he])]
      exact ih hmem'

/-- Replacing the `k` entries does not change searches for another key. -/
theorem find?_replace_ne (t : List (String × List String)) (k v k' : String) (hne : k' ≠ k) :
    List.find? (fun kv => kv.1 == k') (t.map (fun kv => if kv.1 == k then (k, [v]) else kv))
      = List.find? (fun kv => kv.1 == k') t := by
  induction t with
  | nil => rfl
  | cons e t ih =>
    by_cases he : e.1 = k
    · have h1 : ¬ (k = k') := fun hkk => hne hkk.symm
      have h2 : ¬ (e.1 = k') := he ▸ h1
      rw [List.map_cons, if_pos (beq_iff_eq.mpr he),
        List.find?_cons_of_neg _ (by simp [h1]), List.find?_cons_of_neg _ (by simp [h2])]
      exact ih
    · by_cases he' : e.1 = k'
      · rw [List.map_cons, if_neg (by simp [he]),
          List.find?_cons_of_pos _ (by simp [he']), List.find?_cons_of_pos _ (by simp [he'])]
      · rw [List.map_cons, if_neg (by simp [he]),
          List.find?_cons_of_neg _ (by simp [he']), List.find?_cons_of_neg _ (by simp [he'])]
        exact ih

/-- Looking a key up after `Set` of that key yields the new value. -/
theorem get_set_eq (h : Header) (k v : String) : Header.get (Header.set h k v) k = v := by
  unfold Header.set
  by_cases ha : List.any h (fun kv => kv.1 == k) = true
  · have hmem : k ∈ h.map Prod.fst := by
      rcases List.any_eq_true.mp ha with ⟨x, hx, hpx⟩
      simp only [beq_iff_eq] at hpx
      exact hpx ▸ List.mem_map_of_mem Prod.fst hx
    rw [if_pos ha]
    unfold Header.get
    rw [find?_replace_eq h k v hmem]
  · have hnone : List.find? (fun kv => kv.1 == k) h = none := by
      rw [List.find?_eq_none]
      intro x hx hpx
      exact ha (List.any_eq_true.mpr ⟨x, hx, hpx⟩)
    have hone : List.find? (fun kv => kv.1 == k) [(k, [v])] = some (k, [v]) :=
      List.find?_cons_of_pos _ (by simp)
    rw [if_neg ha]
    unfold Header.get
    rw [List.find?_append, hnone, hone]
    rfl

/-- Looking a different key up after `Set` is unchanged. -/
theorem get_set_ne (h : Header) (k v k' : String) (hne : k' ≠ k) :
    Header.get (Header.set h k v) k' = Header.get h k' := by
  unfold Header.set
  by_cases ha : List.any h (fun kv => kv.1 == k) = true
  · rw [if_pos ha]
    unfold Header.get
    rw [find?_replace_ne h k v k' hne]
  · have hk : ¬ (k = k') := fun hkk => hne hkk.symm
    have hone : List.find? (fun kv => kv.1 == k') [(k, [v])] = none :=
      List.find?_cons_of_neg _ (by simp [hk])
    rw [if_neg ha]
    unfold Header.get
    rw [List.find?_append, hone, Option.or_none]

/-- Lookup skips an entry with a different key. -/
theorem get_cons_ne (e : String × List String) (t : Header) (k : String) (h : ¬ e.1 = k) :
    Header.get (e :: t) k = Header.get t k := by
  unfold Header.get
  rw [List.find?_cons_of_neg _ (by simp [h])]

/-- Lookup at the head entry returns its first value. -/
theorem get_cons_eq (e : String × List String) (t : Header) (k : String) (h : e.1 = k) :
    Header.get (e :: t) k = e.2.headD "" := by
  obtain ⟨k1, vs1⟩ := e
  unfold Header.get
  rw [List.find?_cons_of_pos _ (by simp; exact h)]
  cases vs1 <;> rfl

/-- In a key-distinct header map, `Get` returns the first value stored
under the key. -/
theorem get_of_mem_nodup : ∀ (src : Header) (k : String) (vs : List String),
    (src.map Prod.fst).Nodup → (k, vs) ∈ src → Header.get src k = vs.headD "" := by
  intro src
  induction src with
  | nil => intro k vs _ hmem; simp at hmem
  | cons e t ih =>
    intro k vs hnd hmem
    by_cases he : e.1 = k
    · rcases List.mem_cons.mp hmem with h1 | h2
      · rw [get_cons_eq e t k he, ← h1]
      · exfalso
        have hnin : e.1 ∉ t.map Prod.fst := by
          simp only [List.map_cons, List.nodup_cons] at hnd
          exact hnd.1
        exact hnin (he ▸ List.mem_map_of_mem Prod.fst h2)
    · have h2 : (k, vs) ∈ t := by
        rcases List.mem_cons.mp hmem with h1 | h2
        · exact absurd (congrArg Prod.fst h1.symm) (by simpa using he)
        · exact h2
      have hnd' : (t.map Prod.fst).Nodup := by
        simp only [List.map_cons, List.nodup_cons] at hnd
        exact hnd.2
      rw [get_cons_ne e t k he]
      exact ih k vs hnd' h2

/-- Folding per-key `Set`s over entries whose keys all differ from `k`
leaves the lookup at `k` unchanged. -/
theorem get_foldl_not_mem (f : String → String) (k : String) :
    ∀ (entries : List (String × List String)) (dst : Header),
      (∀ kv ∈ entries, kv.1 ≠ k) →
      Header.get (entries.foldl (fun d kv => Header.set d kv.1 (f kv.1)) dst) k
        = Header.get dst k := by
  intro entries
  induction entries with
  | nil => intro dst _; rfl
  | cons e t ih =>
    intro dst hall
    rw [List.foldl_cons, ih _ (fun kv hkv => hall kv (List.mem_cons_of_mem e hkv))]
    exact get_set_ne dst e.1 (f e.1) k (fun hk => (hall e (List.mem_cons_self e t)) hk.symm)

/-- Folding per-key `Set`s over key-distinct entries containing `k` makes
the lookup at `k` return `f k`. -/
theorem get_foldl_mem (f : String → String) (k : String) :
    ∀ (entries : List (String × List String)) (dst : Header),
      k ∈ entries.map Prod.fst → (entries.map Prod.fst).Nodup →
      Header.get (entries.foldl (fun d kv => Header.set d kv.1 (f kv.1)) dst) k = f k := by
  intro entries
  induction entries with
  | nil => intro dst hmem; simp at hmem
  | cons e t ih =>
    intro dst hmem hnd
    rw [List.foldl_cons]
    by_cases he : e.1 = k
    · subst he
      have hknot : ∀ kv ∈ t, kv.1 ≠ e.1 := by
        intro kv hkv hk
        have hnin : e.1 ∉ t.map Prod.fst := by
          simp only [List.map_cons, List.nodup_cons] at hnd
          exact hnd.1
        exact hnin (hk ▸ List.mem_map_of_mem Prod.fst hkv)
      rw [get_foldl_not_mem f e.1 t _ hknot]
      exact get_set_eq dst e.1 (f e.1)
    · have hmem' : k ∈ t.map Prod.fst := by
        simp only [List.map_cons, List.mem_cons] at hmem
        exact hmem.resolve_left (fun h1 => he h1.symm)
      have hnd' : (t.map Prod.fst).Nodup := by
        simp only [List.map_cons, List.nodup_cons] at hnd
        exact hnd.2
      exact ih _ hmem' hnd'

/-- The handler always publishes exactly its record, once (both branches
of the closure send `d` and nothing else). -/
theorem published_eq (env : Env) (u : GoURL) (r : Req) :
    (handler env u r).published = [(handler env u r).d] := by
  unfold handler
  dsimp only
  rcases hh : handleRequest env u r { Times := { Start := some env.tStart } } {} with ⟨d1, w1, err⟩
  cases err <;> rfl

/-- The handler's event order: stamp start, run the pipeline, stamp end,
publish, and only then (and only on error) write the error response. -/
theorem events_eq (env : Env) (u : GoURL) (r : Req) :
    (handler env u r).events =
      if ((handler env u r).d.Error).isSome then
        [Ev.stampStart, Ev.pipelineDone, Ev.stampEnd, Ev.publish, Ev.errorResponse]
      else
        [Ev.stampStart, Ev.pipelineDone, Ev.stampEnd, Ev.publish] := by
  unfold handler
  dsimp only
  rcases hh : handleRequest env u r { Times := { Start := some env.tStart } } {} with ⟨d1, w1, err⟩
  cases err <;> rfl

/-- Record produced when outbound request construction fails (invalid
method): status 0, empty request capture, no response capture, the
construction error, no source tag, only start/end stamps. -/
theorem d_invalid (env : Env) (u : GoURL) (r : Req) (h : validMethod r.Method = false) :
    (handler env u r).d =
      { StatusCode := 0, Request := some [], Response := none,
        Error := some ("net/http: invalid method \"" ++ r.Method ++ "\""),
        Times := { Start := some env.tStart, End := some env.tEnd }, Source := "" } := by
  simp [handler, handleRequest, prepareRequest, h]

/-- Caller-visible response when construction fails: the 503 error page. -/
theorem w_invalid (env : Env) (u : GoURL) (r : Req) (h : validMethod r.Method = false) :
    (handler env u r).w = httpError {} ("net/http: invalid method \"" ++ r.Method ++ "\"") 503 := by
  simp [handler, handleRequest, prepareRequest, h]

/-- Record produced when the round trip fails: status 503, the partial
request capture, no response capture, the transport error, the source
tag, and trace stamps only for phases that were reached. -/
theorem d_rtError (env : Env) (u : GoURL) (r : Req) (e : String)
    (hm : validMethod r.Method = true) (hrt : env.rt = Except.error e) :
    (handler env u r).d =
      { StatusCode := 503,
        Request := some ((teeRun { src := r.Body, buf := [] } env.reqSched).2.buf),
        Response := none, Error := some e,
        Times := { Start := some env.tStart,
                   WroteRequest := if env.wrotePhase then some env.tWrote else none,
                   GotFirstResponseByte := if env.gotFirstBytePhase then some env.tFirst else none,
                   End := some env.tEnd },
        Source := Header.get r.Header "Source" } := by
  cases hw : env.wrotePhase <;> cases hg : env.gotFirstBytePhase <;>
    simp [handler, handleRequest, prepareRequest, process, hm, hrt, hw, hg]

/-- Caller-visible response when the round trip fails: the 503 error page
with the transport error's message. -/
theorem w_rtError (env : Env) (u : GoURL) (r : Req) (e : String)
    (hm : validMethod r.Method = true) (hrt : env.rt = Except.error e) :
    (handler env u r).w = httpError {} e 503 := by
  cases hw : env.wrotePhase <;> cases hg : env.gotFirstBytePhase <;>
    simp [handler, handleRequest, prepareRequest, process, hm, hrt, hw, hg]

/-- Record produced when the round trip returns a response: upstream
status, the request capture, the response-relay capture, the relay error
(if any) as the record error, the source tag, and the trace stamps. -/
theorem d_ok (env : Env) (u : GoURL) (r : Req) (res : Resp)
    (hm : validMethod r.Method = true) (hrt : env.rt = Except.ok res) :
    (handler env u r).d =
      { StatusCode := res.StatusCode,
        Request := some ((teeRun { src := r.Body, buf := [] } env.reqSched).2.buf),
        Response := some ((copyTee res.Body env.respSched env.relayErr).2.1),
        Error := env.relayErr,
        Times := { Start := some env.tStart,
                   WroteRequest := if env.wrotePhase then some env.tWrote else none,
                   GotFirstResponseByte := if env.gotFirstBytePhase then some env.tFirst else none,
                   End := some env.tEnd },
        Source := Header.get r.Header "Source" } := by
  cases hw : env.wrotePhase <;> cases hg : env.gotFirstBytePhase <;>
    cases hre : env.relayErr <;>
      simp [handler, handleRequest, prepareRequest, process, copyTee, hm, hrt, hw, hg, hre]

/-- Caller-visible response on a clean relay: upstream headers, upstream
status, the full upstream body. -/
theorem w_ok_none (env : Env) (u : GoURL) (r : Req) (res : Resp)
    (hm : validMethod r.Method = true) (hrt : env.rt = Except.ok res)
    (hre : env.relayErr = none) :
    (handler env u r).w =
      { header := copyHeaders [] res.Header, status := some res.StatusCode,
        body := res.Body } := by
  have hc := copyTee_none res.Body env.respSched
  cases hw : env.wrotePhase <;> cases hg : env.gotFirstBytePhase <;>
    simp [handler, handleRequest, prepareRequest, process, RW.writeHeader,
      hm, hrt, hw, hg, hre, hc]

/-- Caller-visible response on an aborted relay: upstream headers and
status (the later 503 attempt is a superfluous `WriteHeader`), the partial
body followed by the error page text appended by `http.Error`. -/
theorem w_ok_relay (env : Env) (u : GoURL) (r : Req) (res : Resp) (e : String)
    (hm : validMethod r.Method = true) (hrt : env.rt = Except.ok res)
    (hre : env.relayErr = some e) :
    (handler env u r).w =
      httpError
        { header := copyHeaders [] res.Header, status := some res.StatusCode,
          body := (teeRun { src := res.Body, buf := [] } env.respSched).1 }
        e 503 := by
  have hc := copyTee_some res.Body env.respSched e
  cases hw : env.wrotePhase <;> cases hg : env.gotFirstBytePhase <;>
    simp [handler, handleRequest, prepareRequest, process, RW.writeHeader,
      hm, hrt, hw, hg, hre, hc]

/-- The record's start/end stamps are always set, to the entry/exit clock
readings, in every outcome. -/
theorem startEnd_eq (env : Env) (u : GoURL) (r : Req) :
    (handler env u r).d.Times.Start = some env.tStart
      ∧ (handler env u r).d.Times.End = some env.tEnd := by
  by_cases hv : validMethod r.Method
  · cases hrt : env.rt with
    | error e => rw [d_rtError env u r e hv hrt]; exact ⟨rfl, rfl⟩
    | ok res => rw [d_ok env u r res hv hrt]; exact ⟨rfl, rfl⟩
  · rw [d_invalid env u r (Bool.eq_false_iff.mpr hv)]; exact ⟨rfl, rfl⟩

/-! ## Claims -/

/-- Claim C1: for every inbound request, whatever the outcome (success,
upstream error status, request-construction failure, transport failure,
relay failure), exactly one observation record — the handler's record —
is published on the outbound channel: never zero, never more than one. -/
theorem C1_exactly_one_record (env : Env) (u : GoURL) (r : Req) :
    (handler env u r).published.length = 1
      ∧ (handler env u r).published = [(handler env u r).d] := by
  refine ⟨?_, published_eq env u r⟩
  rw [published_eq env u r]
  rfl

/-- Claim C2: on a round trip that succeeds with a clean relay, the
record's request capture equals byte-for-byte the bytes read from the
caller's body and forwarded upstream (an in-order prefix of the caller's
body), and the response capture equals byte-for-byte the bytes relayed to
the caller, namely the full upstream body. -/
theorem C2_capture_byte_exact (env : Env) (u : GoURL) (r : Req) (res : Resp)
    (hm : validMethod r.Method = true) (hrt : env.rt = Except.ok res)
    (hre : env.relayErr = none) :
    (handler env u r).d.Request
        = some ((teeRun { src := r.Body, buf := [] } env.reqSched).1)
      ∧ (∃ k, (teeRun { src := r.Body, buf := [] } env.reqSched).1 = r.Body.take k)
      ∧ (handler env u r).d.Response = some res.Body
      ∧ (handler env u r).w.body = res.Body := by
  have hbuf := teeRun_buf env.reqSched { src := r.Body, buf := [] }
  simp only [List.nil_append] at hbuf
  refine ⟨?_, teeRun_take env.reqSched { src := r.Body, buf := [] }, ?_, ?_⟩
  · rw [d_ok env u r res hm hrt, hbuf]
  · rw [d_ok env u r res hm hrt, hre, copyTee_none]
  · rw [w_ok_none env u r res hm hrt hre]

/-- Witness for C2 at a concrete successful round trip. -/
theorem C2_capture_byte_exact_witness :
    validMethod wReq.Method = true ∧ wEnvOk.rt = Except.ok wResp ∧ wEnvOk.relayErr = none
      ∧ ((handler wEnvOk wTarget wReq).d.Request
            = some ((teeRun { src := wReq.Body, buf := [] } wEnvOk.reqSched).1)
          ∧ (∃ k, (teeRun { src := wReq.Body, buf := [] } wEnvOk.reqSched).1 = wReq.Body.take k)
          ∧ (handler wEnvOk wTarget wReq).d.Response = some wResp.Body
          ∧ (handler wEnvOk wTarget wReq).w.body = wResp.Body) :=
  ⟨by decide, rfl, rfl, C2_capture_byte_exact wEnvOk wTarget wReq wResp (by decide) rfl rfl⟩

/-- Claim C3: on a transport error the record's status is 503, the error
is recorded, no response capture exists, and the caller receives a 503
whose body is the error's message (plus the newline `http.Error`'s
plaintext formatting appends). -/
theorem C3_transport_failure_503 (env : Env) (u : GoURL) (r : Req) (e : String)
    (hm : validMethod r.Method = true) (hrt : env.rt = Except.error e) :
    (handler env u r).d.StatusCode = 503
      ∧ (handler env u r).d.Error = some e
      ∧ (handler env u r).d.Response = none
      ∧ (handler env u r).w.status = some 503
      ∧ (handler env u r).w.body = gs e ++ [10] := by
  rw [d_rtError env u r e hm hrt, w_rtError env u r e hm hrt]
  refine ⟨rfl, rfl, rfl, ?_, ?_⟩ <;> simp [httpError, RW.writeHeader]

/-- Witness for C3 at a concrete refused connection. -/
theorem C3_transport_failure_503_witness :
    validMethod wReq.Method = true ∧ wEnvErr.rt = Except.error "connection refused"
      ∧ ((handler wEnvErr wTarget wReq).d.StatusCode = 503
          ∧ (handler wEnvErr wTarget wReq).d.Error = some "connection refused"
          ∧ (handler wEnvErr wTarget wReq).d.Response = none
          ∧ (handler wEnvErr wTarget wReq).w.status = some 503
          ∧ (handler wEnvErr wTarget wReq).w.body = gs "connection refused" ++ [10]) :=
  ⟨by decide, rfl,
    C3_transport_failure_503 wEnvErr wTarget wReq "connection refused" (by decide) rfl⟩

/-- Claim C4 counterexample: a relay failure after the upstream responded
leaves an error in the record while the status code is the upstream's 200,
so error presence and `status_code = 503` do not coincide, and an error is
present although neither construction nor the round trip failed. -/
theorem C4_counterexample :
    ((handler wEnvRelay wTarget wReq).d.Error).isSome = true
      ∧ (handler wEnvRelay wTarget wReq).d.StatusCode = 200
      ∧ (handler wEnvRelay wTarget wReq).d.StatusCode ≠ 503 := by decide

/-- Claim C4 (amended): the record's status code is 0 when request
construction failed, 503 when the round trip failed, and otherwise the
upstream's status (which may itself be 503); the error field is present
exactly when construction, the round trip, or the response relay failed. -/
theorem C4_error_and_status (env : Env) (u : GoURL) (r : Req) :
    (handler env u r).d.StatusCode
        = (if validMethod r.Method then
            (match env.rt with
              | Except.error _ => 503
              | Except.ok res => res.StatusCode)
          else 0)
      ∧ (handler env u r).d.Error
        = (if validMethod r.Method then
            (match env.rt with
              | Except.error e => some e
              | Except.ok _ => env.relayErr)
          else some ("net/http: invalid method \"" ++ r.Method ++ "\"")) := by
  by_cases hv : validMethod r.Method
  · cases hrt : env.rt with
    | error e => rw [d_rtError env u r e hv hrt]; simp [hv, hrt]
    | ok res => rw [d_ok env u r res hv hrt]; simp [hv, hrt]
  · have hv' := Bool.eq_false_iff.mpr hv
    rw [d_invalid env u r hv']
    simp [hv']

/-- Claim C5 counterexample: with a repeated header name (two values under
one key), the copied value is the first occurrence `"a"`, not the last
occurrence `"b"` as the claim states. -/
theorem C5_counterexample :
    Header.get (copyHeaders [] [("K", ["a", "b"])]) "K" ≠ "b"
      ∧ Header.get (copyHeaders [] [("K", ["a", "b"])]) "K" = "a" := by decide

/-- Claim C5 (amended): header copying is per-key replacement — for a
key-distinct source map, every key present in the source ends up in the
destination with the value `src.Get k`, which is the FIRST value stored
under that key. -/
theorem C5_copy_per_key (dst src : Header) (k : String) (vs : List String)
    (hnd : (src.map Prod.fst).Nodup) (hmem : (k, vs) ∈ src) :
    Header.get (copyHeaders dst src) k = Header.get src k
      ∧ Header.get src k = vs.headD "" := by
  refine ⟨?_, get_of_mem_nodup src k vs hnd hmem⟩
  exact get_foldl_mem (fun kk => Header.get src kk) k src dst
    (List.mem_map_of_mem Prod.fst hmem) hnd

/-- Witness for C5 on a concrete two-key map. -/
theorem C5_copy_per_key_witness :
    (([("K", ["a", "b"]), ("L", ["c"])] : Header).map Prod.fst).Nodup
      ∧ (Header.get (copyHeaders [("X", ["y"])] [("K", ["a", "b"]), ("L", ["c"])]) "K"
            = Header.get [("K", ["a", "b"]), ("L", ["c"])] "K"
          ∧ Header.get ([("K", ["a", "b"]), ("L", ["c"])] : Header) "K" = ["a", "b"].headD "") :=
  ⟨by decide,
    C5_copy_per_key [("X", ["y"])] [("K", ["a", "b"]), ("L", ["c"])] "K" ["a", "b"]
      (by decide) (by decide)⟩

/-- Claim C6 counterexample: a decoded path containing a space is
percent-escaped by `url.URL.String`, so the rewritten URL is not the plain
concatenation `targetScheme://targetHost + path` the claim states, and the
path is not passed through unmodified. -/
theorem C6_counterexample :
    rewrite { Path := gs "/a b" } { Scheme := gs "http", Host := gs "h" }
        ≠ gs "http" ++ gs "://" ++ gs "h" ++ gs "/a b"
      ∧ rewrite { Path := gs "/a b" } { Scheme := gs "http", Host := gs "h" }
        = gs "http://h/a%20b" := by decide

/-- Claim C6 (amended): for a target with non-empty scheme and host and an
inbound path that is empty or `/`-rooted, `rewrite` is a pure function
yielding `targetScheme://targetHost` (host percent-escaped under host
rules) + the inbound path percent-escaped under path rules + `?` + the
raw query verbatim when non-empty, and the result depends only on the
inbound path and raw query — never on the inbound scheme, host, or
fragment. -/
theorem C6_rewrite_shape (s t : GoURL)
    (hs : t.Scheme ≠ []) (hh : t.Host ≠ [])
    (hp : s.Path = [] ∨ s.Path.head? = some 47) :
    rewrite s t
        = t.Scheme ++ gs "://" ++ escape t.Host shouldEscapeHost
            ++ escape s.Path shouldEscapePath
            ++ (if s.RawQuery.isEmpty then [] else 63 :: s.RawQuery)
      ∧ (∀ s' : GoURL, s'.Path = s.Path → s'.RawQuery = s.RawQuery →
          rewrite s' t = rewrite s t) := by
  constructor
  · have hse : t.Scheme.isEmpty = false := by
      cases hts : t.Scheme with
      | nil => exact absurd hts hs
      | cons a l => rfl
    have hhe : t.Host.isEmpty = false := by
      cases hth : t.Host with
      | nil => exact absurd hth hh
      | cons a l => rfl
    have hgs : gs "://" = [58, 47, 47] := by decide
    unfold rewrite urlString
    rcases hp with hp | hp
    · rw [hp]
      simp [hse, hhe, hgs, escape]
    · have hphead : (escape s.Path shouldEscapePath).head? = some 47 := by
        cases hsp : s.Path with
        | nil => rw [hsp] at hp; simp at hp
        | cons a l =>
          rw [hsp] at hp
          simp only [List.head?_cons, Option.some.injEq] at hp
          rw [hp]
          simp [escape, shouldEscapePath, isAlnum]
      simp [hse, hhe, hgs, hphead]
  · intro s' h1 h2
    unfold rewrite
    rw [h1, h2]

/-- Witness for C6 at a concrete inbound URL and target. -/
theorem C6_rewrite_shape_witness :
    wTarget.Scheme ≠ [] ∧ wTarget.Host ≠ []
      ∧ (wSrcURL.Path = [] ∨ wSrcURL.Path.head? = some 47)
      ∧ (rewrite wSrcURL wTarget
            = wTarget.Scheme ++ gs "://" ++ escape wTarget.Host shouldEscapeHost
                ++ escape wSrcURL.Path shouldEscapePath
                ++ (if wSrcURL.RawQuery.isEmpty then [] else 63 :: wSrcURL.RawQuery)
          ∧ (∀ s' : GoURL, s'.Path = wSrcURL.Path → s'.RawQuery = wSrcURL.RawQuery →
              rewrite s' wTarget = rewrite wSrcURL wTarget)) :=
  ⟨by decide, by decide, Or.inr (by decide),
    C6_rewrite_shape wSrcURL wTarget (by decide) (by decide) (Or.inr (by decide))⟩

/-- Claim C7: when the round trip returned a response but the relay to the
caller aborted, the relay error is recorded in the record, the partial
response capture accumulated up to the failure point (a prefix of the
upstream body) is still published, and both the record's status code and
the status already written to the caller remain the upstream's real
status, not 503. -/
theorem C7_relay_error_partial_capture (env : Env) (u : GoURL) (r : Req) (res : Resp)
    (e : String) (hm : validMethod r.Method = true) (hrt : env.rt = Except.ok res)
    (hre : env.relayErr = some e) :
    (handler env u r).d.Error = some e
      ∧ (handler env u r).d.StatusCode = res.StatusCode
      ∧ (handler env u r).d.Response
          = some ((teeRun { src := res.Body, buf := [] } env.respSched).1)
      ∧ (∃ k, (teeRun { src := res.Body, buf := [] } env.respSched).1 = res.Body.take k)
      ∧ (handler env u r).published = [(handler env u r).d]
      ∧ (handler env u r).w.status = some res.StatusCode := by
  refine ⟨?_, ?_, ?_, teeRun_take env.respSched { src := res.Body, buf := [] },
    published_eq env u r, ?_⟩
  · rw [d_ok env u r res hm hrt, hre]
  · rw [d_ok env u r res hm hrt]
  · rw [d_ok env u r res hm hrt, hre, copyTee_some]
  · rw [w_ok_relay env u r res e hm hrt hre]
    exact httpError_status _ e 503 res.StatusCode rfl

/-- Witness for C7 at a concrete aborted relay. -/
theorem C7_relay_error_partial_capture_witness :
    validMethod wReq.Method = true ∧ wEnvRelay.rt = Except.ok wResp
      ∧ wEnvRelay.relayErr = some "broken pipe"
      ∧ ((handler wEnvRelay wTarget wReq).d.Error = some "broken pipe"
          ∧ (handler wEnvRelay wTarget wReq).d.StatusCode = wResp.StatusCode
          ∧ (handler wEnvRelay wTarget wReq).d.Response
              = some ((teeRun { src := wResp.Body, buf := [] } wEnvRelay.respSched).1)
          ∧ (∃ k, (teeRun { src := wResp.Body, buf := [] } wEnvRelay.respSched).1
              = wResp.Body.take k)
          ∧ (handler wEnvRelay wTarget wReq).published = [(handler wEnvRelay wTarget wReq).d]
          ∧ (handler wEnvRelay wTarget wReq).w.status = some wResp.StatusCode) :=
  ⟨by decide, rfl, rfl,
    C7_relay_error_partial_capture wEnvRelay wTarget wReq wResp "broken pipe"
      (by decide) rfl rfl⟩

/-- Claim C8 counterexample: when outbound request construction fails
(invalid method), `d.Source` is never assigned, so the published record's
tag is empty even though the inbound `Source` header carries `"x"` — the
claim's "for every handled request" is false on this path. -/
theorem C8_counterexample :
    Header.get wReqBad.Header "Source" = "x"
      ∧ (handler wEnvErr wTarget wReqBad).d.Source = ""
      ∧ (handler wEnvErr wTarget wReqBad).d.Source
          ≠ Header.get wReqBad.Header "Source" := by decide

/-- Claim C8 (amended): for every request whose outbound request
construction succeeds, the record's source tag is the inbound `Source`
header value copied verbatim, an absent header yielding the empty string
without error; when construction fails the tag is always empty. -/
theorem C8_source_tag (env : Env) (u : GoURL) (r : Req) :
    (validMethod r.Method = true →
        (handler env u r).d.Source = Header.get r.Header "Source")
      ∧ (validMethod r.Method = false → (handler env u r).d.Source = "")
      ∧ (List.find? (fun kv => kv.1 == "Source") r.Header = none →
          (handler env u r).d.Source = "") := by
  have hA : validMethod r.Method = true →
      (handler env u r).d.Source = Header.get r.Header "Source" := by
    intro hv
    cases hrt : env.rt with
    | error e => rw [d_rtError env u r e hv hrt]
    | ok res => rw [d_ok env u r res hv hrt]
  refine ⟨hA, ?_, ?_⟩
  · intro hv
    rw [d_invalid env u r hv]
  · intro hfind
    by_cases hv : validMethod r.Method
    · rw [hA hv]
      unfold Header.get
      rw [hfind]
    · rw [d_invalid env u r (Bool.eq_false_iff.mpr hv)]

/-- Witness for C8: a valid-method request with the `Source` header set. -/
theorem C8_source_tag_witness :
    validMethod wReq.Method = true
      ∧ (handler wEnvOk wTarget wReq).d.Source = Header.get wReq.Header "Source" :=
  ⟨by decide, (C8_source_tag wEnvOk wTarget wReq).1 (by decide)⟩

/-- Claim C9: in the handler's chronological log of `Times` assignments
each of the four fields is assigned at most once; the start/end stamps are
always set, and `WroteRequest`/`GotFirstResponseByte` carry the phase
clock reading exactly when the transport reached that phase (and the
round trip was attempted at all), remaining unset otherwise. -/
theorem C9_times_set_once (env : Env) (u : GoURL) (r : Req) :
    ((timesLog env r).count TField.fStart ≤ 1
        ∧ (timesLog env r).count TField.fWrote ≤ 1
        ∧ (timesLog env r).count TField.fFirst ≤ 1
        ∧ (timesLog env r).count TField.fEnd ≤ 1)
      ∧ (handler env u r).d.Times.Start = some env.tStart
      ∧ (handler env u r).d.Times.End = some env.tEnd
      ∧ (handler env u r).d.Times.WroteRequest
          = (if env.wrotePhase && validMethod r.Method then some env.tWrote else none)
      ∧ (handler env u r).d.Times.GotFirstResponseByte
          = (if env.gotFirstBytePhase && validMethod r.Method then some env.tFirst else none) := by
  refine ⟨?_, (startEnd_eq env u r).1, (startEnd_eq env u r).2, ?_, ?_⟩
  · cases hv : validMethod r.Method <;> cases hw : env.wrotePhase <;>
      cases hg : env.gotFirstBytePhase <;> simp [timesLog, hv, hw, hg]
  all_goals
    by_cases hv : validMethod r.Method
    case pos =>
      cases hrt : env.rt with
      | error e => rw [d_rtError env u r e hv hrt]; simp [hv]
      | ok res => rw [d_ok env u r res hv hrt]; simp [hv]
    case neg =>
      have hv' := Bool.eq_false_iff.mpr hv
      rw [d_invalid env u r hv']
      simp [hv']

/-- Claim C10: the record's start stamp is taken at handler entry (the
first event) and the end stamp after the pipeline returns; with a
monotone clock start is not later than end; the record is published
exactly once, after the end stamp, and on the failure path publication
precedes the 503 error response written to the caller. -/
theorem C10_publish_after_end (env : Env) (u : GoURL) (r : Req) :
    (handler env u r).d.Times.Start = some env.tStart
      ∧ (handler env u r).d.Times.End = some env.tEnd
      ∧ (handler env u r).events.head? = some Ev.stampStart
      ∧ evBefore (handler env u r).events Ev.stampEnd Ev.publish
      ∧ (handler env u r).events.count Ev.publish = 1
      ∧ ((handler env u r).d.Error.isSome = true →
          evBefore (handler env u r).events Ev.publish Ev.errorResponse)
      ∧ (env.tStart ≤ env.tEnd →
          ∃ a b, (handler env u r).d.Times.Start = some a
            ∧ (handler env u r).d.Times.End = some b ∧ a ≤ b) := by
  refine ⟨(startEnd_eq env u r).1, (startEnd_eq env u r).2, ?_, ?_, ?_, ?_, ?_⟩
  · rw [events_eq env u r]
    cases hs : ((handler env u r).d.Error).isSome <;> simp [hs]
  · rw [events_eq env u r]
    cases hs : ((handler env u r).d.Error).isSome <;> simp [hs] <;> decide
  · rw [events_eq env u r]
    cases hs : ((handler env u r).d.Error).isSome <;> simp [hs]
  · intro hsome
    rw [events_eq env u r, hsome]
    simp only [if_true]
    decide
  · intro hle
    exact ⟨env.tStart, env.tEnd, (startEnd_eq env u r).1, (startEnd_eq env u r).2, hle⟩

/-- Witness for C10: a failing round trip with a monotone clock. -/
theorem C10_publish_after_end_witness :
    ((handler wEnvErr wTarget wReq).d.Error).isSome = true
      ∧ evBefore (handler wEnvErr wTarget wReq).events Ev.publish Ev.errorResponse
      ∧ (∃ a b, (handler wEnvErr wTarget wReq).d.Times.Start = some a
          ∧ (handler wEnvErr wTarget wReq).d.Times.End = some b ∧ a ≤ b) :=
  ⟨by decide,
    (C10_publish_after_end wEnvErr wTarget wReq).2.2.2.2.2.1 (by decide),
    (C10_publish_after_end wEnvErr wTarget wReq).2.2.2.2.2.2 (by decide)⟩

end Proxy
